import Mathlib

/-!
Shallow embedding of the Market-Making-Simulator core components
(order book, risk manager, market maker, PnL tracker, simulator step loop)
over exact rationals, together with theorems settling the spec claims.

Python floats are modelled by `ℚ`; Python `None`-returning functions by
`Option`; the numpy global random stream by an explicit `Stream' ℚ` whose
elements are, in order, the values returned by the successive
`np.random.random()` / `np.random.normal(...)` calls.
-/

/-- Embeds `OrderBook.__init__` state: mid price, half-spread, flat depth. -/
structure OrderBook where
  mid_price : ℚ
  spread : ℚ
  depth_per_level : ℚ
  num_levels : ℕ
deriving Repr, DecidableEq

/-- Embeds `OrderBook.get_mid_price`. -/
def OrderBook.get_mid_price (b : OrderBook) : ℚ := b.mid_price

/-- Embeds `OrderBook.get_best_bid`. -/
def OrderBook.get_best_bid (b : OrderBook) : ℚ := b.mid_price - b.spread

/-- Embeds `OrderBook.get_best_ask`. -/
def OrderBook.get_best_ask (b : OrderBook) : ℚ := b.mid_price + b.spread

/-- Embeds `OrderBook.get_bid_ask_spread`. -/
def OrderBook.get_bid_ask_spread (b : OrderBook) : ℚ := 2 * b.spread

/-- Embeds `OrderBook.get_depth_at_level`. -/
def OrderBook.get_depth_at_level (b : OrderBook) (level : ℕ) : ℚ × ℚ :=
  if level ≥ b.num_levels then (0, 0) else (b.depth_per_level, b.depth_per_level)

/-- Embeds `OrderBook.update_mid_price` (mutation becomes a new state). -/
def OrderBook.update_mid_price (b : OrderBook) (new_mid : ℚ) : OrderBook :=
  { b with mid_price := new_mid }

/-- Embeds `OrderBook.execute_market_buy`: returns
`some ((execution_price, executed_qty), book after impact)`.  The execution
price is computed from the pre-impact book, exactly as in the source, where
`self.mid_price` is only incremented after `execution_price` is bound.  The
impact branch divides `quantity / available_depth`; when `available_depth`
is zero that division raises `ZeroDivisionError` in the source, modelled
here as `none`. -/
def OrderBook.execute_market_buy (b : OrderBook) (quantity : ℚ) :
    Option ((ℚ × ℚ) × OrderBook) :=
  let available_depth := b.depth_per_level
  let executed_qty := min quantity available_depth
  let execution_price := b.get_best_ask
  if quantity > available_depth then
    if available_depth = 0 then none
    else some ((execution_price, executed_qty),
      { b with mid_price :=
          b.mid_price + (quantity / available_depth - 1) * b.spread * (1/2) })
  else some ((execution_price, executed_qty), b)

/-- Embeds `OrderBook.execute_market_sell`: symmetric to the buy side, the
impact is subtracted from the mid; the same division underlies the impact,
so the same zero-depth executions raise (`none`). -/
def OrderBook.execute_market_sell (b : OrderBook) (quantity : ℚ) :
    Option ((ℚ × ℚ) × OrderBook) :=
  let available_depth := b.depth_per_level
  let executed_qty := min quantity available_depth
  let execution_price := b.get_best_bid
  if quantity > available_depth then
    if available_depth = 0 then none
    else some ((execution_price, executed_qty),
      { b with mid_price :=
          b.mid_price - (quantity / available_depth - 1) * b.spread * (1/2) })
  else some ((execution_price, executed_qty), b)

/-- Embeds `RiskManager.__init__` configuration. -/
structure RiskManager where
  enable_kill_switch : Bool
  drawdown_limit : Option ℚ
  enable_size_throttle : Bool
  min_throttle : ℚ
deriving Repr, DecidableEq

/-- Whether the kill-switch branch of `RiskManager.apply` fires: the switch is
enabled, `drawdown_limit` is not `None`, and `cash_pnl <= -abs(drawdown_limit)`. -/
def RiskManager.killTriggered (rm : RiskManager) (cash_pnl : ℚ) : Bool :=
  rm.enable_kill_switch &&
    match rm.drawdown_limit with
    | some dl => decide (cash_pnl ≤ -|dl|)
    | none => false

/-- Embeds `RiskManager.apply`: kill switch first (early return with zeroed
sizes and `is_active = False`), then the inventory size throttle. -/
def RiskManager.apply (rm : RiskManager)
    (bid_price bid_size ask_price ask_size inventory max_inventory cash_pnl : ℚ) :
    ℚ × ℚ × ℚ × ℚ × Bool :=
  if rm.killTriggered cash_pnl then
    (bid_price, 0, ask_price, 0, false)
  else if rm.enable_size_throttle && decide (max_inventory > 0) then
    let inv_ratio := min 1 (|inventory| / max_inventory)
    let scale := max rm.min_throttle (1 - inv_ratio)
    (bid_price, bid_size * scale, ask_price, ask_size * scale, true)
  else
    (bid_price, bid_size, ask_price, ask_size, true)

/-- Embeds `MarketMaker.__init__` state: configuration plus the mutable
inventory and trade accumulators. -/
structure MarketMaker where
  quote_spread : ℚ
  quote_size : ℚ
  max_inventory : ℚ
  inventory_skew_factor : ℚ
  risk_manager : Option RiskManager
  inventory : ℚ
  total_buy_value : ℚ
  total_sell_value : ℚ
  total_bought : ℚ
  total_sold : ℚ
deriving Repr, DecidableEq

/-- Embeds `MarketMaker.get_inventory`. -/
def MarketMaker.get_inventory (mm : MarketMaker) : ℚ := mm.inventory

/-- Embeds `MarketMaker.get_cash_pnl`. -/
def MarketMaker.get_cash_pnl (mm : MarketMaker) : ℚ :=
  mm.total_sell_value - mm.total_buy_value

/-- Embeds `MarketMaker.get_total_pnl`. -/
def MarketMaker.get_total_pnl (mm : MarketMaker) (current_mid : ℚ) : ℚ :=
  let net_cost := mm.total_buy_value - mm.total_sell_value
  let inventory_value := mm.inventory * current_mid
  inventory_value - net_cost

/-- Embeds `MarketMaker.get_quotes`: skewed bid/ask prices, breach-suppressed
sizes, then the optional risk-manager pass (which drops `is_active`). -/
def MarketMaker.get_quotes (mm : MarketMaker) (order_book : OrderBook) :
    ℚ × ℚ × ℚ × ℚ :=
  let mid := order_book.get_mid_price
  let inventory_skew := mm.inventory * mm.inventory_skew_factor
  let bid_price := mid - mm.quote_spread - inventory_skew
  let ask_price := mid + mm.quote_spread + inventory_skew
  let bid_size :=
    if |mm.inventory + mm.quote_size| ≤ mm.max_inventory then mm.quote_size else 0
  let ask_size :=
    if |mm.inventory - mm.quote_size| ≤ mm.max_inventory then mm.quote_size else 0
  match mm.risk_manager with
  | some rm =>
      let r := rm.apply bid_price bid_size ask_price ask_size
        mm.inventory mm.max_inventory mm.get_cash_pnl
      (r.1, r.2.1, r.2.2.1, r.2.2.2.1)
  | none => (bid_price, bid_size, ask_price, ask_size)

/-- Embeds `MarketMaker.get_quotes` as a state transformer, recording that the
method body contains only reads: the returned `MarketMaker` and `OrderBook`
are the ones the method was called with (no field is ever assigned). -/
def MarketMaker.get_quotes_st (mm : MarketMaker) (order_book : OrderBook) :
    (ℚ × ℚ × ℚ × ℚ) × MarketMaker × OrderBook :=
  (mm.get_quotes order_book, mm, order_book)

/-- Embeds `MarketMaker.execute_bid_fill` (the maker buys). -/
def MarketMaker.execute_bid_fill (mm : MarketMaker) (price quantity : ℚ) :
    MarketMaker :=
  { mm with
    inventory := mm.inventory + quantity
    total_buy_value := mm.total_buy_value + price * quantity
    total_bought := mm.total_bought + quantity }

/-- Embeds `MarketMaker.execute_ask_fill` (the maker sells). -/
def MarketMaker.execute_ask_fill (mm : MarketMaker) (price quantity : ℚ) :
    MarketMaker :=
  { mm with
    inventory := mm.inventory - quantity
    total_sell_value := mm.total_sell_value + price * quantity
    total_sold := mm.total_sold + quantity }

/-- Embeds `MarketMaker.get_average_buy_price` (`None` when nothing bought). -/
def MarketMaker.get_average_buy_price (mm : MarketMaker) : Option ℚ :=
  if mm.total_bought = 0 then none
  else some (mm.total_buy_value / mm.total_bought)

/-- Embeds `MarketMaker.get_average_sell_price` (`None` when nothing sold). -/
def MarketMaker.get_average_sell_price (mm : MarketMaker) : Option ℚ :=
  if mm.total_sold = 0 then none
  else some (mm.total_sell_value / mm.total_sold)

/-- The maker's side of a recorded trade (`'buy'` / `'sell'` in the source). -/
inductive Side where
  | buy : Side
  | sell : Side
deriving Repr, DecidableEq

/-- Embeds the trade dict appended by `PnLTracker.record_trade`. -/
structure Trade where
  timestamp : ℚ
  side : Side
  price : ℚ
  quantity : ℚ
  mid_price : ℚ
  spread_vs_mid : ℚ
deriving Repr, DecidableEq

/-- Embeds `PnLTracker.__init__`: the two append-only ledgers. -/
structure PnLTracker where
  trades : List Trade
  inventory_snapshots : List (ℚ × ℚ × ℚ)
deriving Repr, DecidableEq

/-- Embeds `PnLTracker.record_trade`, including the derived `spread_vs_mid`
field (`price - mid` for a maker sell, `mid - price` for a maker buy). -/
def PnLTracker.record_trade (t : PnLTracker)
    (timestamp : ℚ) (side : Side) (price quantity mid_price : ℚ) : PnLTracker :=
  { t with trades := t.trades ++
      [{ timestamp := timestamp, side := side, price := price,
         quantity := quantity, mid_price := mid_price,
         spread_vs_mid :=
           if side = Side.sell then price - mid_price else mid_price - price }] }

/-- Embeds `PnLTracker.record_inventory_snapshot`. -/
def PnLTracker.record_inventory_snapshot (t : PnLTracker)
    (timestamp inventory mid_price : ℚ) : PnLTracker :=
  { t with inventory_snapshots :=
      t.inventory_snapshots ++ [(timestamp, inventory, mid_price)] }

/-- Embeds `PnLTracker.get_spread_capture`. -/
def PnLTracker.get_spread_capture (t : PnLTracker) : ℚ :=
  (t.trades.map (fun trade => trade.spread_vs_mid * trade.quantity)).sum

/-- One iteration of the loop in `PnLTracker.get_inventory_pnl`: the previous
inventory times the mid-price change. -/
def snapshotPnl (prev curr : ℚ × ℚ × ℚ) : ℚ :=
  prev.2.1 * (curr.2.2 - prev.2.2)

/-- Embeds the index loop of `PnLTracker.get_inventory_pnl` over consecutive
snapshot pairs. -/
def inventoryPnlAccum : List (ℚ × ℚ × ℚ) → ℚ
  | prev :: curr :: rest => snapshotPnl prev curr + inventoryPnlAccum (curr :: rest)
  | _ => 0

/-- Embeds `PnLTracker.get_inventory_pnl`. -/
def PnLTracker.get_inventory_pnl (t : PnLTracker) : ℚ :=
  if t.inventory_snapshots.length < 2 then 0
  else inventoryPnlAccum t.inventory_snapshots

/-- One iteration of the loop in `PnLTracker.get_adverse_selection_cost`: the
contribution of the consecutive trade pair `(trade, next_trade)`, mirroring
the source's `if` / `elif` on the maker side and the sign of the move. -/
def adversePair (trade next_trade : Trade) : ℚ :=
  let price_move := next_trade.mid_price - trade.mid_price
  if trade.side = Side.buy ∧ price_move < 0 then |price_move| * trade.quantity
  else if trade.side = Side.sell ∧ price_move > 0 then |price_move| * trade.quantity
  else 0

/-- Embeds the index loop of `PnLTracker.get_adverse_selection_cost` over
consecutive trade pairs. -/
def adverseAccum : List Trade → ℚ
  | trade :: next_trade :: rest =>
      adversePair trade next_trade + adverseAccum (next_trade :: rest)
  | _ => 0

/-- Embeds `PnLTracker.get_adverse_selection_cost` (negated accumulator). -/
def PnLTracker.get_adverse_selection_cost (t : PnLTracker) : ℚ :=
  if t.trades.length < 2 then 0
  else -adverseAccum t.trades

/-- Embeds `PnLTracker.get_trade_count`. -/
def PnLTracker.get_trade_count (t : PnLTracker) : ℕ × ℕ :=
  ((t.trades.filter (fun tr => tr.side = Side.buy)).length,
   (t.trades.filter (fun tr => tr.side = Side.sell)).length)

/-- Embeds the history dict appended by `MarketSimulator.step`. -/
structure StepRecord where
  time : ℚ
  mid_price : ℚ
  bid_price : ℚ
  ask_price : ℚ
  inventory : ℚ
  trade_occurred : Bool
  trade_side : Option Side
  trade_price : Option ℚ
  trade_quantity : Option ℚ
  cash_pnl : ℚ
  total_pnl : ℚ
deriving Repr, DecidableEq

/-- Embeds the mutable state of `MarketSimulator` (the numpy global random
stream is threaded separately as a `Stream' ℚ`). -/
structure MarketSimulator where
  order_book : OrderBook
  market_maker : MarketMaker
  pnl_tracker : PnLTracker
  current_time : ℚ
  history : List StepRecord

/-- Embeds `MarketSimulator.simulate_order_flow`: one uniform draw for
arrival; only when the order arrives, a second uniform draw for direction.
Returns the optional side together with the remaining stream. -/
def simulate_order_flow (rng : Stream' ℚ) (arrival_rate : ℚ) :
    Option Side × Stream' ℚ :=
  if rng.head < arrival_rate then
    (some (if rng.tail.head < 1/2 then Side.buy else Side.sell), rng.tail.tail)
  else (none, rng.tail)

/-- Embeds `MarketSimulator.simulate_price_move`: one draw, whose value is the
`np.random.normal(0, volatility*sqrt(dt))` sample, scales the current mid to
give the additive price change. -/
def simulate_price_move (b : OrderBook) (rng : Stream' ℚ) :
    OrderBook × Stream' ℚ :=
  let current_mid := b.get_mid_price
  let price_change := rng.head * current_mid
  (b.update_mid_price (current_mid + price_change), rng.tail)

/-- Embeds `MarketSimulator.step`: advance time, snapshot the pre-step mid,
quote, draw order flow, resolve the fill against the quoted sizes, draw the
price move, snapshot inventory, append the history record. -/
def MarketSimulator.step (sim : MarketSimulator) (rng : Stream' ℚ)
    (volatility arrival_rate dt : ℚ) : MarketSimulator × Stream' ℚ :=
  let current_time := sim.current_time + dt
  let initial_mid := sim.order_book.get_mid_price
  let quotes := sim.market_maker.get_quotes sim.order_book
  let bid_price := quotes.1
  let bid_size := quotes.2.1
  let ask_price := quotes.2.2.1
  let ask_size := quotes.2.2.2
  let flow := simulate_order_flow rng arrival_rate
  let order_side := flow.1
  let rng1 := flow.2
  let fill :
      MarketMaker × PnLTracker × Bool × Option Side × Option ℚ × Option ℚ :=
    if order_side = some Side.buy ∧ ask_size > 0 then
      (sim.market_maker.execute_ask_fill ask_price ask_size,
       sim.pnl_tracker.record_trade current_time Side.sell ask_price ask_size initial_mid,
       true, some Side.sell, some ask_price, some ask_size)
    else if order_side = some Side.sell ∧ bid_size > 0 then
      (sim.market_maker.execute_bid_fill bid_price bid_size,
       sim.pnl_tracker.record_trade current_time Side.buy bid_price bid_size initial_mid,
       true, some Side.buy, some bid_price, some bid_size)
    else
      (sim.market_maker, sim.pnl_tracker, false, none, none, none)
  let moved := simulate_price_move sim.order_book rng1
  let order_book1 := moved.1
  let rng2 := moved.2
  let current_mid := order_book1.get_mid_price
  let current_inventory := fill.1.get_inventory
  let tracker1 :=
    fill.2.1.record_inventory_snapshot current_time current_inventory current_mid
  let step_data : StepRecord :=
    { time := current_time
      mid_price := current_mid
      bid_price := bid_price
      ask_price := ask_price
      inventory := current_inventory
      trade_occurred := fill.2.2.1
      trade_side := fill.2.2.2.1
      trade_price := fill.2.2.2.2.1
      trade_quantity := fill.2.2.2.2.2
      cash_pnl := fill.1.get_cash_pnl
      total_pnl := fill.1.get_total_pnl current_mid }
  ({ order_book := order_book1
     market_maker := fill.1
     pnl_tracker := tracker1
     current_time := current_time
     history := sim.history ++ [step_data] }, rng2)

/-- Iterates `MarketSimulator.step` over an explicit list of per-call
`(volatility, arrival_rate, dt)` parameter triples, threading the stream. -/
def MarketSimulator.runSteps :
    MarketSimulator → Stream' ℚ → List (ℚ × ℚ × ℚ) → MarketSimulator × Stream' ℚ
  | sim, rng, [] => (sim, rng)
  | sim, rng, p :: ps =>
      let r := sim.step rng p.1 p.2.1 p.2.2
      MarketSimulator.runSteps r.1 r.2 ps

/-- Embeds `MarketSimulator.run`: `num_steps` calls to `step` with the same
parameters. -/
def MarketSimulator.run (sim : MarketSimulator) (rng : Stream' ℚ)
    (num_steps : ℕ) (volatility arrival_rate dt : ℚ) :
    MarketSimulator × Stream' ℚ :=
  MarketSimulator.runSteps sim rng
    (List.replicate num_steps (volatility, arrival_rate, dt))

/-- The construction-time configuration shared by the order book, the market
maker and the tracker of a simulator (everything except the seed). -/
structure SimConfig where
  initial_mid : ℚ
  spread : ℚ
  depth_per_level : ℚ
  num_levels : ℕ
  quote_spread : ℚ
  quote_size : ℚ
  max_inventory : ℚ
  inventory_skew_factor : ℚ
  risk_manager : Option RiskManager
deriving Repr, DecidableEq

/-- Embeds constructing the three components and `MarketSimulator.__init__`
from a configuration (fresh maker with zero inventory and accumulators,
empty tracker, time `0`, empty history). -/
def mkSimulator (cfg : SimConfig) : MarketSimulator :=
  { order_book :=
      { mid_price := cfg.initial_mid, spread := cfg.spread,
        depth_per_level := cfg.depth_per_level, num_levels := cfg.num_levels }
    market_maker :=
      { quote_spread := cfg.quote_spread, quote_size := cfg.quote_size,
        max_inventory := cfg.max_inventory,
        inventory_skew_factor := cfg.inventory_skew_factor,
        risk_manager := cfg.risk_manager,
        inventory := 0, total_buy_value := 0, total_sell_value := 0,
        total_bought := 0, total_sold := 0 }
    pnl_tracker := { trades := [], inventory_snapshots := [] }
    current_time := 0
    history := [] }

/-- The `(mid_price, inventory)` observation sequence read off the history. -/
def MarketSimulator.obsSeq (sim : MarketSimulator) : List (ℚ × ℚ) :=
  sim.history.map (fun r => (r.mid_price, r.inventory))

/-- The adverse-selection contribution of a consecutive trade pair as the
spec phrases it: a single disjunctive guard on `(side, sign of move)`. -/
def adversePairSpec (trade next_trade : Trade) : ℚ :=
  if (trade.side = Side.buy ∧ next_trade.mid_price - trade.mid_price < 0) ∨
     (trade.side = Side.sell ∧ next_trade.mid_price - trade.mid_price > 0) then
    |next_trade.mid_price - trade.mid_price| * trade.quantity
  else 0

/-- Well-formedness of an attached risk manager for the inventory-limit
invariant: the throttle floor lies in `(0, 1]`. -/
def ThrottleOK (mm : MarketMaker) : Prop :=
  ∀ rm ∈ mm.risk_manager, 0 < rm.min_throttle ∧ rm.min_throttle ≤ 1

/-- Invariant bundle carried through the step loop: the position limit is the
constant `M`, positive, the throttle floor is well-formed, and the inventory
is within the limit. -/
def GoodSim (M : ℚ) (sim : MarketSimulator) : Prop :=
  sim.market_maker.max_inventory = M ∧ 0 < M ∧
    ThrottleOK sim.market_maker ∧ |sim.market_maker.inventory| ≤ M

/-- Fixture: a flat maker after a 10-unit round trip (bought at 99.95, sold
at 100.05). -/
def mmFlat : MarketMaker :=
  { quote_spread := 1/20, quote_size := 10, max_inventory := 100,
    inventory_skew_factor := 1/100, risk_manager := none,
    inventory := 0, total_buy_value := 1999/2, total_sell_value := 2001/2,
    total_bought := 10, total_sold := 10 }

/-- Fixture: a kill-switch-enabled risk manager with drawdown limit 50. -/
def rmKill : RiskManager :=
  { enable_kill_switch := true, drawdown_limit := some 50,
    enable_size_throttle := true, min_throttle := 1/5 }

/-- Fixture: a maker with inventory 95 of limit 100, no risk manager. -/
def mmNear : MarketMaker :=
  { quote_spread := 1/20, quote_size := 10, max_inventory := 100,
    inventory_skew_factor := 1/100, risk_manager := none,
    inventory := 95, total_buy_value := 0, total_sell_value := 0,
    total_bought := 0, total_sold := 0 }

/-- Fixture: an order book at mid 100 with half-spread 0.10. -/
def obBase : OrderBook :=
  { mid_price := 100, spread := 1/10, depth_per_level := 100, num_levels := 5 }

/-- Fixture: an order book whose touch carries no liquidity at all. -/
def obZeroDepth : OrderBook :=
  { mid_price := 100, spread := 1/10, depth_per_level := 0, num_levels := 5 }

/-- Fixture: a maker that has bought 10 units for 999.5 and sold nothing. -/
def mmBuysOnly : MarketMaker :=
  { quote_spread := 1/20, quote_size := 10, max_inventory := 100,
    inventory_skew_factor := 1/100, risk_manager := none,
    inventory := 10, total_buy_value := 1999/2, total_sell_value := 0,
    total_bought := 10, total_sold := 0 }

/-- Fixture: ledger with a buy at mid 100 followed by a sell at mid 99 (the
spec's adverse-selection example), built through `record_trade`. -/
def trackerAdv : PnLTracker :=
  (PnLTracker.record_trade
    (PnLTracker.record_trade { trades := [], inventory_snapshots := [] }
      1 Side.buy 100 10 100)
    2 Side.sell 99 10 99)

/-- Fixture: a throttled (no kill switch) risk manager with floor 0.2. -/
def rmThrottle : RiskManager :=
  { enable_kill_switch := false, drawdown_limit := none,
    enable_size_throttle := true, min_throttle := 1/5 }

/-- Fixture: a full simulator configuration with the throttle attached. -/
def cfgThrottle : SimConfig :=
  { initial_mid := 100, spread := 1/10, depth_per_level := 100, num_levels := 5,
    quote_spread := 1/20, quote_size := 10, max_inventory := 100,
    inventory_skew_factor := 1/100, risk_manager := some rmThrottle }

/-- Fixture: a full simulator configuration with no risk manager. -/
def cfgPlain : SimConfig :=
  { initial_mid := 100, spread := 1/10, depth_per_level := 100, num_levels := 5,
    quote_spread := 1/20, quote_size := 10, max_inventory := 100,
    inventory_skew_factor := 1/100, risk_manager := none }

/-- Fixture: a seed-to-stream table for the determinism witness (every numpy
draw comes out as 1/4). -/
def seedTable : ℕ → Stream' ℚ := fun _ => Stream'.const (1/4)

/-- C1: with zero inventory, `get_total_pnl` at any mid price equals
`get_cash_pnl` exactly (the zero-inventory reconciliation identity). -/
theorem zero_inventory_total_pnl_eq_cash_pnl (mm : MarketMaker) (m : ℚ)
    (h : mm.inventory = 0) : mm.get_total_pnl m = mm.get_cash_pnl := by
  simp only [MarketMaker.get_total_pnl, MarketMaker.get_cash_pnl, h]
  ring

/-- Witness for C1: the round-trip fixture, checked at mid price 123. -/
theorem zero_inventory_total_pnl_eq_cash_pnl_holds :
    mmFlat.get_total_pnl 123 = mmFlat.get_cash_pnl :=
  zero_inventory_total_pnl_eq_cash_pnl mmFlat 123 rfl

/-- Counterexample to C4 as stated: on a zero-depth book, a strictly
positive market buy (or sell) returns no result at all — the source raises
`ZeroDivisionError` at `quantity / available_depth` — instead of the clean
`(best price before impact, min(q, depth))` return the claim asserts for
every order book state. -/
theorem execute_market_order_zero_depth_raises :
    obZeroDepth.execute_market_buy 5 = none ∧
    obZeroDepth.execute_market_sell 5 = none := by
  constructor <;> rfl

/-- C4 (amended): whenever the executed market order does not hit the
source's `ZeroDivisionError` path (`depth_per_level = 0` with `q > 0`), a
market buy returns `min(qty, depth_per_level)` executed at the pre-impact
best ask and moves the mid up by `(qty/depth − 1) × half_spread × 0.5`
exactly when `qty > depth`, all other book fields unchanged; a market sell
is symmetric at the best bid with a downward move. -/
theorem execute_market_order_spec (b : OrderBook) (q : ℚ)
    (h : b.depth_per_level ≠ 0 ∨ q ≤ 0) :
    b.execute_market_buy q =
      some ((b.get_best_ask, min q b.depth_per_level),
        { b with mid_price :=
            if q > b.depth_per_level then
              b.mid_price + (q / b.depth_per_level - 1) * b.spread * (1/2)
            else b.mid_price }) ∧
    b.execute_market_sell q =
      some ((b.get_best_bid, min q b.depth_per_level),
        { b with mid_price :=
            if q > b.depth_per_level then
              b.mid_price - (q / b.depth_per_level - 1) * b.spread * (1/2)
            else b.mid_price }) := by
  constructor <;>
  · simp only [OrderBook.execute_market_buy, OrderBook.execute_market_sell]
    split_ifs with h1 h2
    · rcases h with hd | hq
      · exact absurd h2 hd
      · exact absurd (h2 ▸ h1) (not_lt.mpr hq)
    · rfl
    · rfl

/-- Witness for C4 (amended): the spec's large-order example, a buy of 200
against depth 100 on the base book, executes 100 at the pre-impact ask and
lifts the mid. -/
theorem execute_market_order_spec_holds :
    obBase.execute_market_buy 200 =
      some ((obBase.get_best_ask, min 200 obBase.depth_per_level),
        { obBase with mid_price :=
            if (200:ℚ) > obBase.depth_per_level then
              obBase.mid_price + (200 / obBase.depth_per_level - 1) * obBase.spread * (1/2)
            else obBase.mid_price }) :=
  (execute_market_order_spec obBase 200 (Or.inl (by norm_num [obBase]))).1

/-- C8: `RiskManager.apply` returns the bid and ask prices it was given in
every branch — the controls only touch sizes. -/
theorem apply_never_alters_prices (rm : RiskManager)
    (bp bs ap asz inv maxInv pnl : ℚ) :
    (rm.apply bp bs ap asz inv maxInv pnl).1 = bp ∧
    (rm.apply bp bs ap asz inv maxInv pnl).2.2.1 = ap := by
  unfold RiskManager.apply
  split_ifs <;> exact ⟨rfl, rfl⟩

/-- C9: the average buy (sell) price is `none` exactly when nothing was
bought (sold), and is the value-weighted average otherwise. -/
theorem average_price_guarded_division (mm : MarketMaker) :
    (mm.get_average_buy_price = none ↔ mm.total_bought = 0) ∧
    (mm.total_bought ≠ 0 →
      mm.get_average_buy_price = some (mm.total_buy_value / mm.total_bought)) ∧
    (mm.get_average_sell_price = none ↔ mm.total_sold = 0) ∧
    (mm.total_sold ≠ 0 →
      mm.get_average_sell_price = some (mm.total_sell_value / mm.total_sold)) := by
  unfold MarketMaker.get_average_buy_price MarketMaker.get_average_sell_price
  refine ⟨?_, ?_, ?_, ?_⟩ <;> split_ifs with h <;> simp [h]

/-- Witness for C9: the buys-only fixture has a defined average buy price. -/
theorem average_price_guarded_division_holds :
    mmBuysOnly.get_average_buy_price
      = some (mmBuysOnly.total_buy_value / mmBuysOnly.total_bought) :=
  (average_price_guarded_division mmBuysOnly).2.1 (by decide)

/-- C10: `get_quotes` mutates nothing — the state-transformer reading of the
method returns the maker and the book unchanged, its value agrees with the
pure `get_quotes`, and an immediately repeated call returns the same quotes. -/
theorem get_quotes_side_effect_free (mm : MarketMaker) (ob : OrderBook) :
    (mm.get_quotes_st ob).2.1 = mm ∧
    (mm.get_quotes_st ob).2.2 = ob ∧
    (mm.get_quotes_st ob).1 = mm.get_quotes ob ∧
    (((mm.get_quotes_st ob).2.1).get_quotes_st ((mm.get_quotes_st ob).2.2)).1
      = mm.get_quotes ob :=
  ⟨rfl, rfl, rfl, rfl⟩

/-- C5: with the kill switch enabled, a drawdown limit set and
`cash_pnl ≤ −|limit|`, `apply` returns the original prices with both sizes
zeroed and `is_active = false`, and the result is the same for every throttle
configuration. -/
theorem kill_switch_short_circuit (rm : RiskManager)
    (bp bs ap asz inv maxInv pnl d : ℚ)
    (hks : rm.enable_kill_switch = true)
    (hd : rm.drawdown_limit = some d)
    (hpnl : pnl ≤ -|d|) :
    rm.apply bp bs ap asz inv maxInv pnl = (bp, 0, ap, 0, false) ∧
    ∀ (throttle : Bool) (mt : ℚ),
      RiskManager.apply
        { rm with enable_size_throttle := throttle, min_throttle := mt }
        bp bs ap asz inv maxInv pnl = (bp, 0, ap, 0, false) := by
  have hkt : ∀ (throttle : Bool) (mt : ℚ),
      RiskManager.killTriggered
        { rm with enable_size_throttle := throttle, min_throttle := mt } pnl
        = true := by
    intro throttle mt
    simp [RiskManager.killTriggered, hks, hd, hpnl]
  constructor
  · have h1 : rm.killTriggered pnl = true := by
      simpa using hkt rm.enable_size_throttle rm.min_throttle
    simp [RiskManager.apply, h1]
  · intro throttle mt
    simp [RiskManager.apply, hkt throttle mt]

/-- Witness for C5: the fixture risk manager at a realized loss of 60 against
a drawdown limit of 50. -/
theorem kill_switch_short_circuit_holds :
    rmKill.apply 99 10 101 10 0 100 (-60) = (99, 0, 101, 0, false) :=
  (kill_switch_short_circuit rmKill 99 10 101 10 0 100 (-60) 50
    rfl rfl (by norm_num)).1

/-- C6: with no risk manager attached, `get_quotes` returns the skewed
prices and the breach-suppressed sizes in closed form. -/
theorem get_quotes_formula_no_risk_manager (mm : MarketMaker) (ob : OrderBook)
    (h : mm.risk_manager = none) :
    mm.get_quotes ob =
      (ob.get_mid_price - mm.quote_spread - mm.inventory * mm.inventory_skew_factor,
       (if |mm.inventory + mm.quote_size| ≤ mm.max_inventory then mm.quote_size else 0),
       ob.get_mid_price + mm.quote_spread + mm.inventory * mm.inventory_skew_factor,
       (if |mm.inventory - mm.quote_size| ≤ mm.max_inventory then mm.quote_size else 0)) := by
  simp [MarketMaker.get_quotes, h]

/-- Witness for C6: the near-limit fixture (inventory 95 of 100, size 10)
quotes a zero bid size and a full ask size. -/
theorem get_quotes_formula_no_risk_manager_holds :
    mmNear.get_quotes obBase
      = (100 - 1/20 - 95 * (1/100), 0, 100 + 1/20 + 95 * (1/100), 10) := by
  rw [get_quotes_formula_no_risk_manager mmNear obBase rfl]
  norm_num [mmNear, obBase, OrderBook.get_mid_price]

/-- The source's `if` / `elif` pair contribution agrees with the spec's single
disjunctive guard. -/
theorem adversePair_eq_spec (trade next_trade : Trade) :
    adversePair trade next_trade = adversePairSpec trade next_trade := by
  simp only [adversePair, adversePairSpec]
  split_ifs <;> first | rfl | tauto

/-- The accumulator loop computes the sum over consecutive pairs. -/
theorem adverseAccum_eq_zip_sum : ∀ l : List Trade,
    adverseAccum l
      = ((l.zip l.tail).map (fun p => adversePairSpec p.1 p.2)).sum
  | [] => rfl
  | [_] => rfl
  | trade :: next_trade :: rest => by
      have ih := adverseAccum_eq_zip_sum (next_trade :: rest)
      simp only [adverseAccum, List.tail_cons, List.zip_cons_cons, List.map_cons,
        List.sum_cons, ih, adversePair_eq_spec]

/-- The accumulator is nonnegative when every recorded quantity is. -/
theorem adverseAccum_nonneg : ∀ l : List Trade,
    (∀ tr ∈ l, 0 ≤ tr.quantity) → 0 ≤ adverseAccum l
  | [] => fun _ => le_refl 0
  | [_] => fun _ => le_refl 0
  | trade :: next_trade :: rest => fun h => by
      have ih := adverseAccum_nonneg (next_trade :: rest)
        (fun tr htr => h tr (List.mem_cons_of_mem _ htr))
      have hpair : 0 ≤ adversePair trade next_trade := by
        have hq : 0 ≤ trade.quantity := h trade (List.mem_cons_self _ _)
        simp only [adversePair]
        split_ifs <;>
          first
          | exact mul_nonneg (abs_nonneg _) hq
          | exact le_refl 0
      simpa [adverseAccum] using add_nonneg hpair ih

/-- C7: `get_adverse_selection_cost` is 0 for fewer than two trades, equals
the negated sum of the per-consecutive-pair adverse contributions, and is
never positive when all recorded quantities are nonnegative. -/
theorem adverse_selection_cost_spec (t : PnLTracker)
    (hq : ∀ tr ∈ t.trades, 0 ≤ tr.quantity) :
    (t.trades.length < 2 → t.get_adverse_selection_cost = 0) ∧
    t.get_adverse_selection_cost
      = -(((t.trades.zip t.trades.tail).map
            (fun p => adversePairSpec p.1 p.2)).sum) ∧
    t.get_adverse_selection_cost ≤ 0 := by
  refine ⟨fun hlen => by simp [PnLTracker.get_adverse_selection_cost, hlen], ?_, ?_⟩
  · unfold PnLTracker.get_adverse_selection_cost
    split_ifs with hlen
    · match hl : t.trades, hlen with
      | [], _ => simp
      | [_], _ => simp
    · rw [adverseAccum_eq_zip_sum]
  · unfold PnLTracker.get_adverse_selection_cost
    split_ifs with hlen
    · exact le_refl 0
    · simpa using adverseAccum_nonneg t.trades hq

/-- Witness for C7: the buy-then-sell fixture ledger satisfies the pair-sum
identity and has nonpositive cost (indeed −10). -/
theorem adverse_selection_cost_spec_holds :
    trackerAdv.get_adverse_selection_cost
      = -(((trackerAdv.trades.zip trackerAdv.trades.tail).map
            (fun p => adversePairSpec p.1 p.2)).sum) ∧
    trackerAdv.get_adverse_selection_cost ≤ 0 :=
  ⟨(adverse_selection_cost_spec trackerAdv (by decide)).2.1,
   (adverse_selection_cost_spec trackerAdv (by decide)).2.2⟩

/-- Convexity bound: if both `a` and `a + q` lie within `[−M, M]`, so does
every point `a + q·s` with `s ∈ [0, 1]`. -/
theorem convex_abs_le (a q s M : ℚ) (ha : |a| ≤ M) (hq : |a + q| ≤ M)
    (h0 : 0 ≤ s) (h1 : s ≤ 1) : |a + q * s| ≤ M := by
  rw [abs_le] at ha hq ⊢
  constructor <;>
    nlinarith [mul_nonneg (sub_nonneg.mpr h1) (by linarith [ha.1] : (0:ℚ) ≤ a + M),
      mul_nonneg h0 (by linarith [hq.1] : (0:ℚ) ≤ a + q + M),
      mul_nonneg (sub_nonneg.mpr h1) (by linarith [ha.2] : (0:ℚ) ≤ M - a),
      mul_nonneg h0 (by linarith [hq.2] : (0:ℚ) ≤ M - (a + q))]

/-- `RiskManager.apply` either zeroes both sizes or multiplies both by a
common factor in `(0, 1]` (given a throttle floor in `(0, 1]`). -/
theorem apply_sizes_scaled (rm : RiskManager)
    (bp bs ap asz inv maxInv pnl : ℚ)
    (hmt0 : 0 < rm.min_throttle) (hmt1 : rm.min_throttle ≤ 1) :
    ((rm.apply bp bs ap asz inv maxInv pnl).2.1 = 0 ∧
     (rm.apply bp bs ap asz inv maxInv pnl).2.2.2.1 = 0) ∨
    ∃ s : ℚ, 0 < s ∧ s ≤ 1 ∧
      (rm.apply bp bs ap asz inv maxInv pnl).2.1 = bs * s ∧
      (rm.apply bp bs ap asz inv maxInv pnl).2.2.2.1 = asz * s := by
  unfold RiskManager.apply
  split_ifs with h1 h2
  · exact Or.inl ⟨rfl, rfl⟩
  · simp only [Bool.and_eq_true, decide_eq_true_eq] at h2
    refine Or.inr ⟨max rm.min_throttle (1 - min 1 (|inv| / maxInv)),
      lt_of_lt_of_le hmt0 (le_max_left _ _), ?_, rfl, rfl⟩
    have hmin : 0 ≤ min 1 (|inv| / maxInv) :=
      le_min zero_le_one (div_nonneg (abs_nonneg _) (le_of_lt h2.2))
    exact max_le hmt1 (by linarith)
  · exact Or.inr ⟨1, one_pos, le_refl 1, (mul_one bs).symm, (mul_one asz).symm⟩

/-- Closed form of `get_quotes` when no risk manager is attached. -/
theorem get_quotes_none_eq (mm : MarketMaker) (ob : OrderBook)
    (h : mm.risk_manager = none) :
    mm.get_quotes ob =
      (ob.get_mid_price - mm.quote_spread - mm.inventory * mm.inventory_skew_factor,
       (if |mm.inventory + mm.quote_size| ≤ mm.max_inventory then mm.quote_size else 0),
       ob.get_mid_price + mm.quote_spread + mm.inventory * mm.inventory_skew_factor,
       (if |mm.inventory - mm.quote_size| ≤ mm.max_inventory then mm.quote_size else 0)) := by
  simp [MarketMaker.get_quotes, h]

/-- Closed form of `get_quotes` when a risk manager is attached: the
pre-risk quote is passed through `RiskManager.apply`. -/
theorem get_quotes_some_eq (mm : MarketMaker) (ob : OrderBook)
    (rm : RiskManager) (h : mm.risk_manager = some rm) :
    mm.get_quotes ob =
      ((rm.apply
          (ob.get_mid_price - mm.quote_spread - mm.inventory * mm.inventory_skew_factor)
          (if |mm.inventory + mm.quote_size| ≤ mm.max_inventory then mm.quote_size else 0)
          (ob.get_mid_price + mm.quote_spread + mm.inventory * mm.inventory_skew_factor)
          (if |mm.inventory - mm.quote_size| ≤ mm.max_inventory then mm.quote_size else 0)
          mm.inventory mm.max_inventory mm.get_cash_pnl).1,
       (rm.apply
          (ob.get_mid_price - mm.quote_spread - mm.inventory * mm.inventory_skew_factor)
          (if |mm.inventory + mm.quote_size| ≤ mm.max_inventory then mm.quote_size else 0)
          (ob.get_mid_price + mm.quote_spread + mm.inventory * mm.inventory_skew_factor)
          (if |mm.inventory - mm.quote_size| ≤ mm.max_inventory then mm.quote_size else 0)
          mm.inventory mm.max_inventory mm.get_cash_pnl).2.1,
       (rm.apply
          (ob.get_mid_price - mm.quote_spread - mm.inventory * mm.inventory_skew_factor)
          (if |mm.inventory + mm.quote_size| ≤ mm.max_inventory then mm.quote_size else 0)
          (ob.get_mid_price + mm.quote_spread + mm.inventory * mm.inventory_skew_factor)
          (if |mm.inventory - mm.quote_size| ≤ mm.max_inventory then mm.quote_size else 0)
          mm.inventory mm.max_inventory mm.get_cash_pnl).2.2.1,
       (rm.apply
          (ob.get_mid_price - mm.quote_spread - mm.inventory * mm.inventory_skew_factor)
          (if |mm.inventory + mm.quote_size| ≤ mm.max_inventory then mm.quote_size else 0)
          (ob.get_mid_price + mm.quote_spread + mm.inventory * mm.inventory_skew_factor)
          (if |mm.inventory - mm.quote_size| ≤ mm.max_inventory then mm.quote_size else 0)
          mm.inventory mm.max_inventory mm.get_cash_pnl).2.2.2.1) := by
  simp [MarketMaker.get_quotes, h]

/-- A strictly positive quoted bid size can be filled in full without the
inventory leaving `[−max_inventory, max_inventory]`. -/
theorem fill_safe_bid (mm : MarketMaker) (ob : OrderBook)
    (hmax : 0 < mm.max_inventory) (hrm : ThrottleOK mm)
    (hinv : |mm.inventory| ≤ mm.max_inventory)
    (hpos : 0 < (mm.get_quotes ob).2.1) :
    |mm.inventory + (mm.get_quotes ob).2.1| ≤ mm.max_inventory := by
  rcases hob : mm.risk_manager with _ | rm
  · rw [get_quotes_none_eq mm ob hob] at hpos ⊢
    dsimp only at hpos ⊢
    split_ifs at hpos ⊢ with hb
    · exact hb
    · exact absurd hpos (lt_irrefl 0)
  · have hmt := hrm rm (by simp [hob])
    rw [get_quotes_some_eq mm ob rm hob] at hpos ⊢
    dsimp only at hpos ⊢
    rcases apply_sizes_scaled rm
        (ob.get_mid_price - mm.quote_spread - mm.inventory * mm.inventory_skew_factor)
        (if |mm.inventory + mm.quote_size| ≤ mm.max_inventory then mm.quote_size else 0)
        (ob.get_mid_price + mm.quote_spread + mm.inventory * mm.inventory_skew_factor)
        (if |mm.inventory - mm.quote_size| ≤ mm.max_inventory then mm.quote_size else 0)
        mm.inventory mm.max_inventory mm.get_cash_pnl hmt.1 hmt.2 with
      hz | ⟨s, hs0, hs1, hbs, _⟩
    · rw [hz.1] at hpos
      exact absurd hpos (lt_irrefl 0)
    · rw [hbs] at hpos ⊢
      split_ifs at hpos ⊢ with hb
      · exact convex_abs_le mm.inventory mm.quote_size s mm.max_inventory
          hinv hb (le_of_lt hs0) hs1
      · rw [zero_mul] at hpos
        exact absurd hpos (lt_irrefl 0)

/-- A strictly positive quoted ask size can be filled in full without the
inventory leaving `[−max_inventory, max_inventory]`. -/
theorem fill_safe_ask (mm : MarketMaker) (ob : OrderBook)
    (hmax : 0 < mm.max_inventory) (hrm : ThrottleOK mm)
    (hinv : |mm.inventory| ≤ mm.max_inventory)
    (hpos : 0 < (mm.get_quotes ob).2.2.2) :
    |mm.inventory - (mm.get_quotes ob).2.2.2| ≤ mm.max_inventory := by
  rcases hob : mm.risk_manager with _ | rm
  · rw [get_quotes_none_eq mm ob hob] at hpos ⊢
    dsimp only at hpos ⊢
    split_ifs at hpos ⊢ with hb
    · exact hb
    · exact absurd hpos (lt_irrefl 0)
  · have hmt := hrm rm (by simp [hob])
    rw [get_quotes_some_eq mm ob rm hob] at hpos ⊢
    dsimp only at hpos ⊢
    rcases apply_sizes_scaled rm
        (ob.get_mid_price - mm.quote_spread - mm.inventory * mm.inventory_skew_factor)
        (if |mm.inventory + mm.quote_size| ≤ mm.max_inventory then mm.quote_size else 0)
        (ob.get_mid_price + mm.quote_spread + mm.inventory * mm.inventory_skew_factor)
        (if |mm.inventory - mm.quote_size| ≤ mm.max_inventory then mm.quote_size else 0)
        mm.inventory mm.max_inventory mm.get_cash_pnl hmt.1 hmt.2 with
      hz | ⟨s, hs0, hs1, _, has⟩
    · rw [hz.2] at hpos
      exact absurd hpos (lt_irrefl 0)
    · rw [has] at hpos ⊢
      split_ifs at hpos ⊢ with hb
      · have h := convex_abs_le mm.inventory (-mm.quote_size) s mm.max_inventory
          hinv (by rwa [← sub_eq_add_neg]) (le_of_lt hs0) hs1
        rwa [neg_mul, ← sub_eq_add_neg] at h
      · rw [zero_mul] at hpos
        exact absurd hpos (lt_irrefl 0)

/-- One `step` either leaves the maker untouched, or applies exactly one fill
of the quoted size on a side whose quoted size was strictly positive. -/
theorem step_market_maker_cases (sim : MarketSimulator) (rng : Stream' ℚ)
    (v a dt : ℚ) :
    (sim.step rng v a dt).1.market_maker = sim.market_maker ∨
    (0 < (sim.market_maker.get_quotes sim.order_book).2.2.2 ∧
      (sim.step rng v a dt).1.market_maker
        = sim.market_maker.execute_ask_fill
            (sim.market_maker.get_quotes sim.order_book).2.2.1
            (sim.market_maker.get_quotes sim.order_book).2.2.2) ∨
    (0 < (sim.market_maker.get_quotes sim.order_book).2.1 ∧
      (sim.step rng v a dt).1.market_maker
        = sim.market_maker.execute_bid_fill
            (sim.market_maker.get_quotes sim.order_book).1
            (sim.market_maker.get_quotes sim.order_book).2.1) := by
  simp only [MarketSimulator.step]
  split_ifs with h1 h2
  · exact Or.inr (Or.inl ⟨h1.2, rfl⟩)
  · exact Or.inr (Or.inr ⟨h2.2, rfl⟩)
  · exact Or.inl rfl

/-- One `step` preserves the invariant bundle. -/
theorem step_good (M : ℚ) (sim : MarketSimulator) (rng : Stream' ℚ)
    (v a dt : ℚ) (h : GoodSim M sim) : GoodSim M (sim.step rng v a dt).1 := by
  obtain ⟨hM, hMpos, hthr, hinvM⟩ := h
  have hmax : 0 < sim.market_maker.max_inventory := hM ▸ hMpos
  have hinv : |sim.market_maker.inventory| ≤ sim.market_maker.max_inventory :=
    hM ▸ hinvM
  rcases step_market_maker_cases sim rng v a dt with heq | ⟨hpos, heq⟩ | ⟨hpos, heq⟩
  · exact ⟨heq ▸ hM, hMpos, heq ▸ hthr, heq ▸ hinvM⟩
  · have hb := fill_safe_ask sim.market_maker sim.order_book hmax hthr hinv hpos
    refine ⟨?_, hMpos, ?_, ?_⟩ <;>
      simp only [heq, MarketMaker.execute_ask_fill, ThrottleOK] at *
    · exact hM
    · exact hthr
    · exact hM ▸ hb
  · have hb := fill_safe_bid sim.market_maker sim.order_book hmax hthr hinv hpos
    refine ⟨?_, hMpos, ?_, ?_⟩ <;>
      simp only [heq, MarketMaker.execute_bid_fill, ThrottleOK] at *
    · exact hM
    · exact hthr
    · exact hM ▸ hb

/-- Iterating `step` over any parameter list preserves the invariant
bundle. -/
theorem runSteps_good (M : ℚ) : ∀ (ps : List (ℚ × ℚ × ℚ))
    (sim : MarketSimulator) (rng : Stream' ℚ),
    GoodSim M sim → GoodSim M (MarketSimulator.runSteps sim rng ps).1
  | [], _, _, h => h
  | p :: ps, sim, rng, h => by
      simp only [MarketSimulator.runSteps]
      exact runSteps_good M ps _ _ (step_good M sim rng p.1 p.2.1 p.2.2 h)

/-- C2: with nonnegative quote size, a positive position limit and (when a
risk manager is attached) a throttle floor in `(0, 1]`, any sequence of
`step` calls started within the limit keeps `|inventory| ≤ max_inventory`
after every step. -/
theorem inventory_never_exceeds_limit (sim : MarketSimulator) (rng : Stream' ℚ)
    (ps : List (ℚ × ℚ × ℚ))
    (hq : 0 ≤ sim.market_maker.quote_size)
    (hmax : 0 < sim.market_maker.max_inventory)
    (hrm : ∀ rm ∈ sim.market_maker.risk_manager,
      0 < rm.min_throttle ∧ rm.min_throttle ≤ 1)
    (hinv : |sim.market_maker.inventory| ≤ sim.market_maker.max_inventory) :
    |((MarketSimulator.runSteps sim rng ps).1).market_maker.inventory|
      ≤ sim.market_maker.max_inventory :=
  (runSteps_good sim.market_maker.max_inventory ps sim rng
    ⟨rfl, hmax, hrm, hinv⟩).2.2.2

/-- Witness for C2: one throttled step from a fresh simulator stays within
the limit. -/
theorem inventory_never_exceeds_limit_holds :
    |((MarketSimulator.runSteps (mkSimulator cfgThrottle) (Stream'.const (1/4))
        [(1/100, 1/2, 1)]).1).market_maker.inventory|
      ≤ (mkSimulator cfgThrottle).market_maker.max_inventory :=
  inventory_never_exceeds_limit (mkSimulator cfgThrottle) (Stream'.const (1/4))
    [(1/100, 1/2, 1)]
    (by norm_num [mkSimulator, cfgThrottle])
    (by norm_num [mkSimulator, cfgThrottle])
    (by
      intro rm h
      simp only [mkSimulator, cfgThrottle, Option.mem_def, Option.some.injEq] at h
      subst h
      exact ⟨by norm_num [rmThrottle], by norm_num [rmThrottle]⟩)
    (by norm_num [mkSimulator, cfgThrottle])

/-- C3: two simulators built from identical configurations and the same seed
produce identical `(mid_price, inventory)` sequences over `N` steps, and each
step consumes the shared stream in the fixed order arrival draw, conditional
direction draw, price-move draw — three draws when an order arrives, two
otherwise. -/
theorem simulator_determinism (seedStream : ℕ → Stream' ℚ)
    (cfg1 cfg2 : SimConfig) (s1 s2 : ℕ) (N : ℕ) (v a dt : ℚ)
    (hcfg : cfg1 = cfg2) (hs : s1 = s2) :
    (((mkSimulator cfg1).run (seedStream s1) N v a dt).1).obsSeq
      = (((mkSimulator cfg2).run (seedStream s2) N v a dt).1).obsSeq ∧
    ∀ (sim : MarketSimulator) (rng : Stream' ℚ),
      (sim.step rng v a dt).2
        = (if rng.head < a then rng.tail.tail.tail else rng.tail.tail) := by
  subst hcfg
  subst hs
  refine ⟨rfl, ?_⟩
  intro sim rng
  simp only [MarketSimulator.step, simulate_order_flow, simulate_price_move]
  split_ifs <;> rfl

/-- Witness for C3: a concrete configuration and seed, two steps. -/
theorem simulator_determinism_holds :
    (((mkSimulator cfgPlain).run (seedTable 7) 2 (1/100) (1/2) 1).1).obsSeq
      = (((mkSimulator cfgPlain).run (seedTable 7) 2 (1/100) (1/2) 1).1).obsSeq :=
  (simulator_determinism seedTable cfgPlain cfgPlain 7 7 2 (1/100) (1/2) 1
    rfl rfl).1
